import Mathlib

/-!
# bonnyTools: the WebM conversion pipeline (`src/utils/videoConverter.js`)

A shallow embedding of `convertVideoToWebM` and `checkVideoConversionSupport`.

* JavaScript numbers are embedded as exact extended rationals (`JSNum`): `NaN`, the two
  infinities and the finite values; `-0` is identified with `0`.  Only comparisons, truthiness,
  `Math.min`, `Math.round`, one division and one multiplication by `100` are used by the source.
* Every value the source reads from the browser (video element, `MediaRecorder`, the animation
  frame id) is an input carried by the event that triggers the handler.
* Every call the source makes on the browser is appended to an effect log, and the promise is a
  field that the first `resolve`/`reject` call fixes.
-/

namespace VideoConverter

/-! ## JavaScript numbers -/

/-- A JavaScript number: `NaN`, `+Infinity`, `-Infinity` or a finite value. -/
inductive JSNum where
  | nan
  | posInf
  | negInf
  | fin (q : ℚ)
  deriving DecidableEq

namespace JSNum

/-- ToBoolean on a number: `NaN` and `0` are falsy, everything else is truthy. -/
def truthy : JSNum → Bool
  | nan => false
  | posInf => true
  | negInf => true
  | fin q => decide (q ≠ 0)

/-- The relational operator `a <= b` of JavaScript; false as soon as one side is `NaN`. -/
def le : JSNum → JSNum → Bool
  | nan, _ => false
  | _, nan => false
  | negInf, _ => true
  | _, posInf => true
  | posInf, _ => false
  | _, negInf => false
  | fin a, fin b => decide (a ≤ b)

/-- The relational operator `a < b` of JavaScript. -/
def lt : JSNum → JSNum → Bool
  | nan, _ => false
  | _, nan => false
  | posInf, _ => false
  | _, negInf => false
  | negInf, _ => true
  | _, posInf => true
  | fin a, fin b => decide (a < b)

/-- The function `Math.min(a, b)`: `NaN` if one argument is `NaN`, else the smaller one. -/
def min : JSNum → JSNum → JSNum
  | nan, _ => nan
  | _, nan => nan
  | negInf, _ => negInf
  | _, negInf => negInf
  | posInf, b => b
  | a, posInf => a
  | fin a, fin b => fin (if a ≤ b then a else b)

/-- The function `Math.round(x)`: the nearest integer, halves rounded towards `+Infinity`. -/
def round : JSNum → JSNum
  | nan => nan
  | posInf => posInf
  | negInf => negInf
  | fin q => fin (⌊q + 1 / 2⌋ : ℤ)

/-- The operator `a / b`. -/
def div : JSNum → JSNum → JSNum
  | nan, _ => nan
  | _, nan => nan
  | posInf, posInf => nan
  | posInf, negInf => nan
  | negInf, posInf => nan
  | negInf, negInf => nan
  | posInf, fin b => if 0 ≤ b then posInf else negInf
  | negInf, fin b => if 0 ≤ b then negInf else posInf
  | fin _, posInf => fin 0
  | fin _, negInf => fin 0
  | fin a, fin b =>
      if b = 0 then (if a = 0 then nan else if 0 < a then posInf else negInf)
      else fin (a / b)

/-- The operator `a * b`. -/
def mul : JSNum → JSNum → JSNum
  | nan, _ => nan
  | _, nan => nan
  | posInf, posInf => posInf
  | posInf, negInf => negInf
  | negInf, posInf => negInf
  | negInf, negInf => posInf
  | posInf, fin b => if b = 0 then nan else if 0 < b then posInf else negInf
  | negInf, fin b => if b = 0 then nan else if 0 < b then negInf else posInf
  | fin a, posInf => if a = 0 then nan else if 0 < a then posInf else negInf
  | fin a, negInf => if a = 0 then nan else if 0 < a then negInf else posInf
  | fin a, fin b => fin (a * b)

end JSNum

/-! ## Options of `convertVideoToWebM` -/

/-- A numeric option as the caller may pass it: left out (`undefined`), `null`, or a number. -/
inductive NumOption where
  | undefined
  | null
  | num (x : JSNum)
  deriving DecidableEq

/-- The `options` argument of `convertVideoToWebM`; `onProgress` records whether a callback
was supplied. -/
structure Options where
  fps : NumOption
  bitrate : NumOption
  onProgress : Bool
  deriving DecidableEq

/-- The destructuring default `fps = 60`: it replaces `undefined` only. -/
def fpsDefault : NumOption → NumOption
  | NumOption.undefined => NumOption.num (JSNum.fin 60)
  | v => v

/-- The destructuring default `bitrate = null`: it replaces `undefined` only. -/
def bitrateDefault : NumOption → NumOption
  | NumOption.undefined => NumOption.null
  | v => v

/-! ## Parameter derivation (lines 46-74) -/

/-- The frame rate read from the source (lines 47-49).
`totalVideoFrames` is `none` when `getVideoPlaybackQuality` is missing, so that the optional
chain yields `undefined`. -/
def originalFps (totalVideoFrames : Option ℕ) (duration : JSNum) : JSNum :=
  match totalVideoFrames with
  | none => JSNum.fin 30
  | some n =>
      if n ≠ 0 then JSNum.round (JSNum.div (JSNum.fin n) duration)
      else JSNum.fin 30

/-- The automatic branch of line 50: `Math.min(originalFps || 60, 60)`. -/
def autoFps (totalVideoFrames : Option ℕ) (duration : JSNum) : JSNum :=
  let o := originalFps totalVideoFrames duration
  JSNum.min (if o.truthy then o else JSNum.fin 60) (JSNum.fin 60)

/-- Line 50: `fps || Math.min(originalFps || 60, 60)`, on the option after its default. -/
def targetFpsOf (fps : NumOption) (totalVideoFrames : Option ℕ) (duration : JSNum) : JSNum :=
  match fps with
  | NumOption.num x => if x.truthy then x else autoFps totalVideoFrames duration
  | _ => autoFps totalVideoFrames duration

/-- The target frame rate of a request: the default of line 17, then line 50. -/
def targetFps (o : Options) (totalVideoFrames : Option ℕ) (duration : JSNum) : JSNum :=
  targetFpsOf (fpsDefault o.fps) totalVideoFrames duration

/-- The tiers of lines 66-73, on the pixel count `canvas.width * canvas.height`. -/
def autoBitrate (pixels : ℕ) : ℕ :=
  if pixels ≤ 1920 * 1080 then 15000000
  else if pixels ≤ 2560 * 1440 then 25000000
  else 35000000

/-- Lines 64-74: the override when it is truthy, else the tier of the pixel count. -/
def finalBitrateOf (bitrate : NumOption) (width height : ℕ) : JSNum :=
  match bitrate with
  | NumOption.num x => if x.truthy then x else JSNum.fin (autoBitrate (width * height))
  | _ => JSNum.fin (autoBitrate (width * height))

/-- The bitrate of a request: the default of line 18, then lines 64-74. -/
def finalBitrate (o : Options) (width height : ℕ) : JSNum :=
  finalBitrateOf (bitrateDefault o.bitrate) width height

/-- Lines 56-61: the container string handed to `MediaRecorder`. -/
def mimeType (vp9 vp8 : Bool) : String :=
  if vp9 then "video/webm;codecs=vp9"
  else if vp8 then "video/webm;codecs=vp8"
  else "video/webm"

/-! ## The pipeline state and the browser events -/

/-- One `event.data` of a `dataavailable` event: its `size` and the opaque bytes. -/
structure Chunk where
  size : ℕ
  payload : ℕ
  deriving DecidableEq

/-- The value of `new Blob(chunks, { type })`. -/
structure Blob where
  parts : List Chunk
  type : String
  deriving DecidableEq

/-- The three `Error` values the source passes to `reject`. -/
inductive Failure where
  /-- Line 106: `new Error('录制失败: ' + event.error)`. -/
  | recordingFailed (error : String)
  /-- Line 152: `new Error('视频加载失败')`. -/
  | videoLoadFailed
  /-- Line 146: the rejection reason of `video.play()`, handed to `reject` unchanged. -/
  | playRejected (reason : String)
  deriving DecidableEq

/-- The settled state of the promise returned by `convertVideoToWebM`. -/
inductive Outcome where
  | resolved (blob : Blob)
  | rejected (error : Failure)
  deriving DecidableEq

/-- The attribute `mediaRecorder.state`. -/
inductive RecorderState where
  | inactive
  | recording
  | paused
  deriving DecidableEq

/-- What one run of `drawFrame` reads from the browser. -/
structure VideoReading where
  ended : Bool
  paused : Bool
  currentTime : JSNum
  duration : JSNum
  recorderState : RecorderState
  /-- The id that `requestAnimationFrame` returns if this run calls it. -/
  frameId : ℕ
  deriving DecidableEq

/-- What the `loadedmetadata` handler reads from the browser. -/
structure MetadataReading where
  videoWidth : ℕ
  videoHeight : ℕ
  /-- The field `totalVideoFrames`; `none` when `getVideoPlaybackQuality` is missing. -/
  totalVideoFrames : Option ℕ
  /-- The answer of `MediaRecorder.isTypeSupported('video/webm;codecs=vp9')`. -/
  vp9 : Bool
  /-- The answer of `MediaRecorder.isTypeSupported('video/webm;codecs=vp8')`. -/
  vp8 : Bool
  /-- Whether `canvas.captureStream` throws on the rate it is given. -/
  captureStreamThrows : Bool
  /-- Whether the `MediaRecorder` constructor throws on the options it is given. -/
  recorderThrows : Bool
  /-- The video element as read by line 48 and by the first `drawFrame()` of line 140. -/
  video : VideoReading
  deriving DecidableEq

/-- The calls the source makes on the browser, on the promise and on the observer. -/
inductive Effect where
  | captureStream (frameRate : JSNum)
  | newMediaRecorder (mimeType : String) (videoBitsPerSecond : JSNum)
  | recorderStart
  | recorderStop
  | play
  | drawImage (width height : ℕ)
  | onProgress (value : JSNum)
  | requestAnimationFrame (id : ℕ)
  | cancelAnimationFrame (id : ℕ)
  | revokeObjectURL
  | resolve (blob : Blob)
  | reject (error : Failure)
  deriving DecidableEq

/-- The variables of the closure of `convertVideoToWebM`, the promise and the effect log. -/
structure Pipeline where
  /-- The variable `mediaRecorder`: `false` while it is `null`. -/
  mediaRecorder : Bool
  animationFrameId : Option ℕ
  chunks : List Chunk
  canvasWidth : ℕ
  canvasHeight : ℕ
  /-- The promise: `none` while pending. -/
  settled : Option Outcome
  log : List Effect
  deriving DecidableEq

/-- The events the browser delivers to the handlers installed by `convertVideoToWebM`. -/
inductive Event where
  | loadedmetadata (m : MetadataReading)
  /-- The event `canplay`; `playRejection` is the reason if `video.play()` rejects. -/
  | canplay (playRejection : Option String)
  | videoError
  /-- The browser runs the callback given to `requestAnimationFrame`. -/
  | animationFrame (r : VideoReading)
  | dataavailable (data : Chunk)
  | recorderStop
  | recorderError (error : String)
  deriving DecidableEq

namespace Pipeline

/-- The state after lines 24-35 and `video.load()`: a fresh canvas is 300 by 150. -/
def init : Pipeline :=
  { mediaRecorder := false, animationFrameId := none, chunks := [],
    canvasWidth := 300, canvasHeight := 150, settled := none, log := [] }

/-- Append one call to the log. -/
def emit (s : Pipeline) (e : Effect) : Pipeline :=
  { s with log := s.log ++ [e] }

/-- The call `resolve(blob)`: it settles the promise only if it is still pending. -/
def resolve (s : Pipeline) (b : Blob) : Pipeline :=
  { s.emit (Effect.resolve b) with
    settled := match s.settled with
      | none => some (Outcome.resolved b)
      | some o => some o }

/-- The call `reject(error)`: it settles the promise only if it is still pending. -/
def reject (s : Pipeline) (e : Failure) : Pipeline :=
  { s.emit (Effect.reject e) with
    settled := match s.settled with
      | none => some (Outcome.rejected e)
      | some o => some o }

/-- Lines 91-93 and 102-104: `if (animationFrameId) cancelAnimationFrame(animationFrameId)`. -/
def cancelPendingFrame (s : Pipeline) : Pipeline :=
  match s.animationFrameId with
  | some id => if id ≠ 0 then s.emit (Effect.cancelAnimationFrame id) else s
  | none => s

end Pipeline

open Pipeline

/-- The progress value of line 131: `(video.currentTime / video.duration) * 100`. -/
def progressOf (r : VideoReading) : JSNum :=
  JSNum.mul (JSNum.div r.currentTime r.duration) (JSNum.fin 100)

/-- The function `drawFrame` (lines 114-137). -/
def drawFrame (o : Options) (s : Pipeline) (r : VideoReading) : Pipeline :=
  if r.ended || r.paused then
    if s.mediaRecorder && decide (r.recorderState = RecorderState.recording) then
      s.emit Effect.recorderStop
    else s
  else
    let s1 := s.emit (Effect.drawImage s.canvasWidth s.canvasHeight)
    let s2 := if o.onProgress && r.duration.truthy then s1.emit (Effect.onProgress (progressOf r))
      else s1
    { s2.emit (Effect.requestAnimationFrame r.frameId) with animationFrameId := some r.frameId }

/-- The handler `video.onloadedmetadata` (lines 38-141).  An exception thrown by
`captureStream` or by the `MediaRecorder` constructor leaves the handler at that call: nothing
catches it, so the promise is not touched. -/
def onloadedmetadata (o : Options) (s : Pipeline) (m : MetadataReading) : Pipeline :=
  let s1 := { s with canvasWidth := m.videoWidth, canvasHeight := m.videoHeight }
  let s2 := s1.emit (Effect.captureStream (targetFps o m.totalVideoFrames m.video.duration))
  if m.captureStreamThrows then s2
  else
    let s3 := s2.emit (Effect.newMediaRecorder (mimeType m.vp9 m.vp8)
      (finalBitrate o s1.canvasWidth s1.canvasHeight))
    if m.recorderThrows then s3
    else
      let s4 := { s3 with mediaRecorder := true }
      let s5 := (s4.emit Effect.recorderStart).emit Effect.play
      drawFrame o s5 m.video

/-- The handler `mediaRecorder.ondataavailable` (lines 83-87). -/
def ondataavailable (s : Pipeline) (data : Chunk) : Pipeline :=
  if data.size > 0 then { s with chunks := s.chunks ++ [data] } else s

/-- The handler `mediaRecorder.onstop` (lines 90-98). -/
def onstop (s : Pipeline) : Pipeline :=
  let s1 := s.cancelPendingFrame
  let blob : Blob := { parts := s1.chunks, type := "video/webm" }
  (s1.emit Effect.revokeObjectURL).resolve blob

/-- The handler `mediaRecorder.onerror` (lines 101-107). -/
def onerror (s : Pipeline) (error : String) : Pipeline :=
  (s.cancelPendingFrame.emit Effect.revokeObjectURL).reject (Failure.recordingFailed error)

/-- The handler `video.oncanplay` (lines 144-147): `video.play().catch(reject)`. -/
def oncanplay (s : Pipeline) (playRejection : Option String) : Pipeline :=
  match playRejection with
  | none => s.emit Effect.play
  | some reason => (s.emit Effect.play).reject (Failure.playRejected reason)

/-- The handler `video.onerror` (lines 150-153). -/
def onVideoError (s : Pipeline) : Pipeline :=
  (s.emit Effect.revokeObjectURL).reject Failure.videoLoadFailed

/-- One event.  The recorder handlers and `drawFrame` exist only once the `loadedmetadata`
handler has created the recorder (they are installed in lines 83-114). -/
def step (o : Options) (s : Pipeline) : Event → Pipeline
  | Event.loadedmetadata m => onloadedmetadata o s m
  | Event.canplay r => oncanplay s r
  | Event.videoError => onVideoError s
  | Event.animationFrame r => if s.mediaRecorder then drawFrame o s r else s
  | Event.dataavailable d => if s.mediaRecorder then ondataavailable s d else s
  | Event.recorderStop => if s.mediaRecorder then onstop s else s
  | Event.recorderError e => if s.mediaRecorder then onerror s e else s

/-- A run from a given state: the events in the order the browser delivers them. -/
def run (o : Options) (s : Pipeline) (evs : List Event) : Pipeline :=
  evs.foldl (step o) s

/-- The function `convertVideoToWebM` (lines 15-158): it sets up the closure and installs the
handlers; what happens next is decided by the events the browser delivers. -/
def convertVideoToWebM (o : Options) (evs : List Event) : Pipeline :=
  run o Pipeline.init evs

/-- The values handed to the progress observer, in call order. -/
def progressValues : List Effect → List JSNum
  | [] => []
  | Effect.onProgress v :: l => v :: progressValues l
  | _ :: l => progressValues l

/-! ## The capability probe -/

/-- The results of the `typeof` operator. -/
inductive TypeTag where
  | undefined
  | object
  | boolean
  | number
  | bigint
  | string
  | symbol
  | function
  deriving DecidableEq

/-- The value of the `prototype` property of `HTMLCanvasElement`, as far as the probe can tell
values apart.  Properties are data properties: reading one runs no code. -/
inductive PrototypeValue where
  | undefined
  | null
  /-- Any other value; `captureStream` is what `typeof` answers on its `captureStream`
  property, `TypeTag.undefined` when it has none. -/
  | value (captureStream : TypeTag)
  deriving DecidableEq

/-- The global `HTMLCanvasElement`, as far as the probe can tell bindings apart. -/
inductive CanvasBinding where
  /-- The identifier is not declared. -/
  | undeclared
  | undefined
  | null
  /-- Any other value: what `typeof` answers on it and its `prototype` property
  (`PrototypeValue.undefined` when it has none, as for `{}`). -/
  | value (tag : TypeTag) (prototype : PrototypeValue)
  deriving DecidableEq

/-- The globals the probe looks at.  Of `MediaRecorder` and `HTMLVideoElement` only `typeof`
is read; `none`: the identifier is not declared. -/
structure HostEnv where
  MediaRecorder : Option TypeTag
  HTMLCanvasElement : CanvasBinding
  HTMLVideoElement : Option TypeTag
  deriving DecidableEq

/-- The exceptions evaluation of the probe could raise. -/
inductive JSError where
  | referenceError
  | typeError
  deriving DecidableEq

/-- The expression `typeof x` on an identifier: `'undefined'` when it is not declared. -/
def typeofGlobal : Option TypeTag → TypeTag
  | none => TypeTag.undefined
  | some t => t

/-- The expression `typeof HTMLCanvasElement`; `typeof null` is `'object'`. -/
def typeofCanvas : CanvasBinding → TypeTag
  | CanvasBinding.undeclared => TypeTag.undefined
  | CanvasBinding.undefined => TypeTag.undefined
  | CanvasBinding.null => TypeTag.object
  | CanvasBinding.value tag _ => tag

/-- The expression `HTMLCanvasElement.prototype`: a `ReferenceError` on an undeclared
identifier, a `TypeError` on `undefined` and on `null`. -/
def readPrototype : CanvasBinding → Except JSError PrototypeValue
  | CanvasBinding.undeclared => Except.error JSError.referenceError
  | CanvasBinding.undefined => Except.error JSError.typeError
  | CanvasBinding.null => Except.error JSError.typeError
  | CanvasBinding.value _ p => Except.ok p

/-- The expression `typeof p.captureStream` on the prototype `p`: a `TypeError` when `p` is
`undefined` or `null`. -/
def typeofCaptureStream : PrototypeValue → Except JSError TypeTag
  | PrototypeValue.undefined => Except.error JSError.typeError
  | PrototypeValue.null => Except.error JSError.typeError
  | PrototypeValue.value t => Except.ok t

/-- The function `checkVideoConversionSupport` (lines 164-171), with the short-circuit
evaluation of `&&`.  The second component is the environment the call leaves behind. -/
def checkVideoConversionSupport (env : HostEnv) : Except JSError Bool × HostEnv :=
  if typeofGlobal env.MediaRecorder ≠ TypeTag.undefined then
    if typeofCanvas env.HTMLCanvasElement ≠ TypeTag.undefined then
      if typeofGlobal env.HTMLVideoElement ≠ TypeTag.undefined then
        match readPrototype env.HTMLCanvasElement with
        | Except.error e => (Except.error e, env)
        | Except.ok p =>
            match typeofCaptureStream p with
            | Except.error e => (Except.error e, env)
            | Except.ok t => (Except.ok (decide (t = TypeTag.function)), env)
      else (Except.ok false, env)
    else (Except.ok false, env)
  else (Except.ok false, env)

/-! ## Observations on a run -/

/-- What one run of `drawFrame` hands to the observer (lines 115 and 130-133): nothing when the
video has ended or is paused, when no observer was given, or when the duration is falsy. -/
def emitted (o : Options) (r : VideoReading) : Option JSNum :=
  if r.ended || r.paused then none
  else if o.onProgress && r.duration.truthy then some (progressOf r)
  else none

/-- Whether the `loadedmetadata` handler gets past both throwing calls, and so creates the
recorder, installs its handlers and runs `drawFrame` once. -/
def MetadataReading.completes (m : MetadataReading) : Bool :=
  !m.captureStreamThrows && !m.recorderThrows

/-- The readings `drawFrame` takes while one event is handled; `recorder` tells whether the
recorder already exists. -/
def stepReadings (recorder : Bool) : Event → List VideoReading
  | Event.loadedmetadata m => if m.completes then [m.video] else []
  | Event.animationFrame r => if recorder then [r] else []
  | _ => []

/-- Whether the recorder exists after one event. -/
def recorderAfter (recorder : Bool) : Event → Bool
  | Event.loadedmetadata m => recorder || m.completes
  | _ => recorder

/-- The readings of the copy loop over a whole event sequence, in order. -/
def copyLoopReadings (recorder : Bool) : List Event → List VideoReading
  | [] => []
  | e :: es => stepReadings recorder e ++ copyLoopReadings (recorderAfter recorder e) es

/-- The order of two playback positions, as the operator `<=` sees it. -/
def positionLe (a b : VideoReading) : Prop :=
  JSNum.le a.currentTime b.currentTime = true

/-- Whether an event calls `resolve` or `reject` when its handler runs. -/
def Event.settles : Event → Bool
  | Event.canplay (some _) => true
  | Event.videoError => true
  | Event.recorderStop => true
  | Event.recorderError _ => true
  | _ => false

/-- The number of `URL.revokeObjectURL` calls in a log. -/
def revokeCount (l : List Effect) : ℕ :=
  l.count Effect.revokeObjectURL

/-- The test of line 84: `event.data.size > 0`. -/
def Chunk.nonEmpty (d : Chunk) : Bool :=
  decide (0 < d.size)

/-- The chunk handed to the data handler while one event is handled; `recorder` tells whether
the recorder, and with it the handler, already exists. -/
def stepData (recorder : Bool) : Event → List Chunk
  | Event.dataavailable d => if recorder then [d] else []
  | _ => []

/-- The chunks handed to the data handler over a whole event sequence, in arrival order. -/
def deliveredData (recorder : Bool) : List Event → List Chunk
  | [] => []
  | e :: es => stepData recorder e ++ deliveredData (recorderAfter recorder e) es

/-! ## Sample inputs -/

/-- A playing video of ten seconds at position `t`, with the recorder recording. -/
def playingAt (t : ℚ) (id : ℕ) : VideoReading :=
  { ended := false, paused := false, currentTime := JSNum.fin t, duration := JSNum.fin 10,
    recorderState := RecorderState.recording, frameId := id }

/-- A 1280 by 720 source of ten seconds on a browser that supports VP9 and throws nowhere. -/
def sampleMetadata : MetadataReading :=
  { videoWidth := 1280, videoHeight := 720, totalVideoFrames := some 0, vp9 := true, vp8 := true,
    captureStreamThrows := false, recorderThrows := false, video := playingAt 0 1 }

/-- The same source on a browser that supports neither VP9 nor VP8. -/
def sampleMetadataNoCodec : MetadataReading :=
  { sampleMetadata with vp9 := false, vp8 := false }

/-- A browser with all three interfaces and `captureStream` on the canvas prototype. -/
def browserEnv : HostEnv :=
  { MediaRecorder := some TypeTag.function,
    HTMLCanvasElement := CanvasBinding.value TypeTag.function
      (PrototypeValue.value TypeTag.function),
    HTMLVideoElement := some TypeTag.function }

/-- An environment in which `HTMLCanvasElement` is the plain object `{}`, which has no
`prototype` property. -/
def plainObjectCanvasEnv : HostEnv :=
  { browserEnv with
    HTMLCanvasElement := CanvasBinding.value TypeTag.object PrototypeValue.undefined }

/-- A request with the override `fps: null`. -/
def nullFpsOptions : Options :=
  { fps := NumOption.null, bitrate := NumOption.undefined, onProgress := false }

/-- A request with the override `fps: 0`. -/
def zeroFpsOptions : Options :=
  { fps := NumOption.num (JSNum.fin 0), bitrate := NumOption.undefined, onProgress := false }

/-- A request with the override `fps: -1`. -/
def negativeFpsOptions : Options :=
  { fps := NumOption.num (JSNum.fin (-1)), bitrate := NumOption.undefined, onProgress := false }

/-- The request of the component (`VideoConverter.jsx`, line 48): only an observer. -/
def componentOptions : Options :=
  { fps := NumOption.undefined, bitrate := NumOption.undefined, onProgress := true }

/-! ## Parameter derivation: frame rate and bitrate -/

section Derivation

open JSNum NumOption

/-- The rounded quotient of line 48 is an integer that is not negative when the duration is
not negative. -/
theorem originalFps_cases (total : Option ℕ) (duration : JSNum)
    (hd : JSNum.lt duration (fin 0) = false) :
    originalFps total duration = nan ∨ originalFps total duration = posInf ∨
      ∃ k : ℤ, 0 ≤ k ∧ originalFps total duration = fin k := by
  unfold originalFps
  rcases total with _ | n
  · exact Or.inr (Or.inr ⟨30, by norm_num, by norm_num⟩)
  · by_cases hn : n = 0
    · simp only [hn, ne_eq, not_true_eq_false, if_false]
      exact Or.inr (Or.inr ⟨30, by norm_num, by norm_num⟩)
    · have hn0 : (n : ℚ) ≠ 0 := by exact_mod_cast hn
      have hnpos : (0 : ℚ) < n := by positivity
      simp only [ne_eq, hn, not_false_eq_true, if_true]
      cases duration with
      | nan => left; rfl
      | posInf =>
          right; right
          refine ⟨0, le_refl _, ?_⟩
          simp [JSNum.div, JSNum.round]
          norm_num
      | negInf => simp [JSNum.lt] at hd
      | fin d =>
          have hd0 : 0 ≤ d := by
            simpa [JSNum.lt] using hd
          by_cases hz : d = 0
          · right; left
            simp [JSNum.div, JSNum.round, hz, hn0, hnpos]
          · right; right
            refine ⟨⌊(n : ℚ) / d + 1 / 2⌋, ?_, ?_⟩
            · apply Int.floor_nonneg.mpr
              have : 0 ≤ (n : ℚ) / d := div_nonneg hnpos.le hd0
              linarith
            · simp [JSNum.div, JSNum.round, hz]

/-- The automatic rate of line 50 is a finite number in `(0, 60]` when the duration is not
negative. -/
theorem autoFps_range (total : Option ℕ) (duration : JSNum)
    (hd : JSNum.lt duration (fin 0) = false) :
    ∃ q : ℚ, autoFps total duration = fin q ∧ 0 < q ∧ q ≤ 60 := by
  unfold autoFps
  rcases originalFps_cases total duration hd with h | h | ⟨k, hk, h⟩
  · rw [h]; exact ⟨60, by simp [JSNum.truthy, JSNum.min], by norm_num, le_refl _⟩
  · rw [h]; exact ⟨60, by simp [JSNum.truthy, JSNum.min], by norm_num, le_refl _⟩
  · rw [h]
    by_cases hk0 : k = 0
    · subst hk0
      exact ⟨60, by simp [JSNum.truthy, JSNum.min], by norm_num, le_refl _⟩
    · have hkpos : 0 < k := lt_of_le_of_ne hk (Ne.symm hk0)
      have hkq : (0 : ℚ) < k := by exact_mod_cast hkpos
      have hkne : (k : ℚ) ≠ 0 := ne_of_gt hkq
      by_cases h60 : (k : ℚ) ≤ 60
      · exact ⟨k, by simp [JSNum.truthy, JSNum.min, hkne, h60], hkq, h60⟩
      · exact ⟨60, by simp [JSNum.truthy, JSNum.min, hkne, h60], by norm_num, le_refl _⟩

/-- A truthy override is the target rate, whatever the source says. -/
theorem targetFps_override (o : Options) (total : Option ℕ) (duration x : JSNum)
    (hx : o.fps = num x) (ht : x.truthy = true) : targetFps o total duration = x := by
  simp [targetFps, fpsDefault, targetFpsOf, hx, ht]

/-- C1 (as stated, refuted): with the override `fps: 120` the rate handed to
`canvas.captureStream` is `120`, which is above `60`. -/
theorem targetFps_override_exceeds_ceiling :
    targetFps ⟨num (fin 120), undefined, false⟩ (some 240) (fin 10) = fin 120 ∧
      ¬ (JSNum.lt (fin 0)
          (targetFps ⟨num (fin 120), undefined, false⟩ (some 240) (fin 10)) = true ∧
        JSNum.le (targetFps ⟨num (fin 120), undefined, false⟩ (some 240) (fin 10)) (fin 60)
          = true) := by
  have h : targetFps ⟨num (fin 120), undefined, false⟩ (some 240) (fin 10) = fin 120 :=
    targetFps_override _ _ _ _ rfl (by simp [JSNum.truthy])
  refine ⟨h, ?_⟩
  rw [h]
  simp [JSNum.le]
  norm_num

/-- C1 (amended): for a duration that is not negative, a truthy override is handed to
`canvas.captureStream` unchanged, and whenever the request has no truthy override outside
`(0, 60]` (the override is left out, `null`, `0`, `NaN`, or itself in `(0, 60]`) the target
rate satisfies `0 < targetFps <= 60`. -/
theorem targetFps_range (o : Options) (total : Option ℕ) (duration : JSNum)
    (hd : JSNum.lt duration (fin 0) = false)
    (ho : ∀ x, o.fps = num x → x.truthy = true →
      JSNum.lt (fin 0) x = true ∧ JSNum.le x (fin 60) = true) :
    (∀ x, o.fps = num x → x.truthy = true → targetFps o total duration = x) ∧
      JSNum.lt (fin 0) (targetFps o total duration) = true ∧
      JSNum.le (targetFps o total duration) (fin 60) = true := by
  refine ⟨fun x hx ht => targetFps_override o total duration x hx ht, ?_⟩
  obtain ⟨q, hq, hq0, hq60⟩ := autoFps_range total duration hd
  have hauto : JSNum.lt (fin 0) (autoFps total duration) = true ∧
      JSNum.le (autoFps total duration) (fin 60) = true := by
    rw [hq]; simp [JSNum.lt, JSNum.le, hq0, hq60]
  rcases hfps : o.fps with _ | _ | x
  · simp [targetFps, fpsDefault, targetFpsOf, hfps, JSNum.truthy, JSNum.lt, JSNum.le]
  · simpa [targetFps, fpsDefault, targetFpsOf, hfps] using hauto
  · by_cases ht : x.truthy = true
    · rw [targetFps_override o total duration x hfps ht]
      exact ho x hfps ht
    · simpa [targetFps, fpsDefault, targetFpsOf, hfps, ht] using hauto

/-- C1 (amended), at a request without override on a 24 fps source of ten seconds. -/
theorem targetFps_range_witness :
    JSNum.lt (fin 0) (targetFps ⟨undefined, undefined, false⟩ (some 240) (fin 10)) = true ∧
      JSNum.le (targetFps ⟨undefined, undefined, false⟩ (some 240) (fin 10)) (fin 60) = true :=
  (targetFps_range ⟨undefined, undefined, false⟩ (some 240) (fin 10)
    (by simp [JSNum.lt]) (by intro x hx; simp at hx)).2

/-- C2: without a bitrate override the bitrate is the tier of the pixel count; the tier
function is monotonically non-decreasing and takes exactly three values, `15000000` up to
`1920 * 1080` pixels, `25000000` up to `2560 * 1440` pixels and `35000000` above. -/
theorem autoBitrate_monotone_three_tiers (p1 p2 : ℕ) (h : p1 ≤ p2) :
    autoBitrate p1 ≤ autoBitrate p2 ∧
      (∀ (o : Options) (w t : ℕ), o.bitrate = undefined ∨ o.bitrate = null →
        finalBitrate o w t = fin (autoBitrate (w * t))) ∧
      (∀ p, p ≤ 1920 * 1080 → autoBitrate p = 15000000) ∧
      (∀ p, 1920 * 1080 < p → p ≤ 2560 * 1440 → autoBitrate p = 25000000) ∧
      (∀ p, 2560 * 1440 < p → autoBitrate p = 35000000) ∧
      (∀ p, autoBitrate p = 15000000 ∨ autoBitrate p = 25000000 ∨
        autoBitrate p = 35000000) := by
  refine ⟨?_, ?_, ?_, ?_, ?_, ?_⟩
  · unfold autoBitrate
    split_ifs <;> omega
  · intro o w t ho
    rcases ho with ho | ho <;> simp [finalBitrate, bitrateDefault, finalBitrateOf, ho]
  · intro p hp
    simp [autoBitrate, hp]
  · intro p hp hp2
    unfold autoBitrate
    split_ifs <;> omega
  · intro p hp
    unfold autoBitrate
    split_ifs <;> omega
  · intro p
    unfold autoBitrate
    split_ifs
    · simp
    · simp
    · simp

/-- C2, at a 1080p and a 4K pixel count. -/
theorem autoBitrate_monotone_three_tiers_witness :
    autoBitrate (1920 * 1080) ≤ autoBitrate (3840 * 2160) :=
  (autoBitrate_monotone_three_tiers (1920 * 1080) (3840 * 2160) (by decide)).1

/-- C8 (as stated, refuted): the request of the component leaves `fps` out.  On the sample
source, where `totalVideoFrames` is still `0` and the rate read from the source is the fallback
`30`, and on a ten second source of 240 frames, where the rate read is `24`, the automatic
branch would give `30` and `24`, but the target rate is the default `60`, and `60` is what
`canvas.captureStream` receives. -/
theorem default_fps_ignores_source_rate :
    originalFps (some 0) (fin 10) = fin 30 ∧
      autoFps (some 0) (fin 10) = fin 30 ∧
      targetFps componentOptions (some 0) (fin 10) = fin 60 ∧
      originalFps (some 240) (fin 10) = fin 24 ∧
      autoFps (some 240) (fin 10) = fin 24 ∧
      targetFps componentOptions (some 240) (fin 10) = fin 60 ∧
      ¬ (targetFps componentOptions (some 240) (fin 10) = JSNum.min (fin 24) (fin 60)) := by
  have h30 : originalFps (some 0) (fin 10) = fin 30 := by
    simp [originalFps]
  have h24 : originalFps (some 240) (fin 10) = fin 24 := by
    simp only [originalFps, JSNum.div, JSNum.round]
    norm_num
  have h60 : ∀ t d, targetFps componentOptions t d = fin 60 := by
    intro t d
    simp [targetFps, componentOptions, fpsDefault, targetFpsOf, JSNum.truthy]
  refine ⟨h30, ?_, h60 _ _, h24, ?_, h60 _ _, ?_⟩
  · simp only [autoFps, h30, JSNum.truthy, JSNum.min]
    norm_num
  · simp only [autoFps, h24, JSNum.truthy, JSNum.min]
    norm_num
  · rw [h60]
    simp only [JSNum.min]
    norm_num

/-- C8 (amended): a request that leaves `fps` out gets the documented default, so its target
rate is `60` whatever the source; a request whose override is falsy (`null`, `0`, `NaN`) gets
`Math.min(originalFps || 60, 60)`, where `originalFps` is the rate read from the source, so
that a source read at a rate `k` in `(0, 60]`, such as 24 or 30, is converted at `k`. -/
theorem targetFps_default_or_automatic (o : Options) (total : Option ℕ) (duration : JSNum) :
    (o.fps = undefined → targetFps o total duration = fin 60) ∧
      ((o.fps = null ∨ ∃ x, o.fps = num x ∧ x.truthy = false) →
        targetFps o total duration =
          JSNum.min (if (originalFps total duration).truthy then originalFps total duration
            else fin 60) (fin 60)) ∧
      (∀ k : ℚ, (o.fps = null ∨ ∃ x, o.fps = num x ∧ x.truthy = false) →
        originalFps total duration = fin k → 0 < k → k ≤ 60 →
        targetFps o total duration = fin k) := by
  have hauto : (o.fps = null ∨ ∃ x, o.fps = num x ∧ x.truthy = false) →
      targetFps o total duration = autoFps total duration := by
    rintro (h | ⟨x, hx, ht⟩)
    · simp [targetFps, fpsDefault, targetFpsOf, h]
    · simp [targetFps, fpsDefault, targetFpsOf, hx, ht]
  refine ⟨?_, ?_, ?_⟩
  · intro h
    simp [targetFps, fpsDefault, targetFpsOf, h, JSNum.truthy]
  · intro h
    rw [hauto h]
    rfl
  · intro k h hk h0 h60
    rw [hauto h]
    simp [autoFps, hk, JSNum.truthy, JSNum.min, ne_of_gt h0, h60]

/-- C8 (amended), at the override `fps: null` on a ten second source of 240 frames. -/
theorem targetFps_default_or_automatic_witness :
    targetFps nullFpsOptions (some 240) (fin 10) = fin 24 :=
  (targetFps_default_or_automatic nullFpsOptions (some 240) (fin 10)).2.2 24 (Or.inl rfl)
    (by simp only [originalFps, JSNum.div, JSNum.round]; norm_num) (by norm_num) (by norm_num)

end Derivation

/-! ## The capability probe -/

section Probe

/-- The probe leaves the environment as it is. -/
theorem checkVideoConversionSupport_env (env : HostEnv) :
    (checkVideoConversionSupport env).2 = env := by
  unfold checkVideoConversionSupport
  split_ifs
  · cases h1 : readPrototype env.HTMLCanvasElement with
    | error e => rfl
    | ok p => cases h2 : typeofCaptureStream p <;> simp [h2]
  · rfl
  · rfl
  · rfl

/-- C10 (as stated, refuted): where `MediaRecorder` and `HTMLVideoElement` are defined and
`HTMLCanvasElement` is the plain object `{}`, the three `typeof` tests pass and reading
`captureStream` from the missing prototype throws a `TypeError`. -/
theorem probe_throws_on_canvas_without_prototype :
    (checkVideoConversionSupport plainObjectCanvasEnv).1 = Except.error JSError.typeError ∧
      (checkVideoConversionSupport
        { browserEnv with HTMLCanvasElement := CanvasBinding.null }).1 =
        Except.error JSError.typeError := by
  constructor <;> rfl

/-- C10 (amended): the probe only reads the environment, so that a second call gives the
answer of the first; it returns `true` exactly when `MediaRecorder`, `HTMLCanvasElement` and
`HTMLVideoElement` are defined and `HTMLCanvasElement.prototype.captureStream` is a function;
it throws, a `TypeError`, exactly when `MediaRecorder` and `HTMLVideoElement` are defined and
`HTMLCanvasElement` is `null` or is defined with a `prototype` that is `undefined` or `null`;
in every other environment, among them every one with a missing primitive, it returns
`false`. -/
theorem checkVideoConversionSupport_iff (env : HostEnv) :
    (checkVideoConversionSupport env).2 = env ∧
      (checkVideoConversionSupport (checkVideoConversionSupport env).2).1 =
        (checkVideoConversionSupport env).1 ∧
      ((checkVideoConversionSupport env).1 = Except.ok true ↔
        (∃ t, env.MediaRecorder = some t ∧ t ≠ TypeTag.undefined) ∧
        (∃ tag, tag ≠ TypeTag.undefined ∧ env.HTMLCanvasElement =
          CanvasBinding.value tag (PrototypeValue.value TypeTag.function)) ∧
        (∃ t, env.HTMLVideoElement = some t ∧ t ≠ TypeTag.undefined)) ∧
      ((checkVideoConversionSupport env).1 = Except.error JSError.typeError ↔
        (∃ t, env.MediaRecorder = some t ∧ t ≠ TypeTag.undefined) ∧
        (env.HTMLCanvasElement = CanvasBinding.null ∨
          ∃ tag p, tag ≠ TypeTag.undefined ∧
            env.HTMLCanvasElement = CanvasBinding.value tag p ∧
            (p = PrototypeValue.undefined ∨ p = PrototypeValue.null)) ∧
        (∃ t, env.HTMLVideoElement = some t ∧ t ≠ TypeTag.undefined)) ∧
      ((checkVideoConversionSupport env).1 = Except.ok true ∨
        (checkVideoConversionSupport env).1 = Except.ok false ∨
        (checkVideoConversionSupport env).1 = Except.error JSError.typeError) ∧
      ((env.MediaRecorder = none ∨ env.HTMLCanvasElement = CanvasBinding.undeclared ∨
          env.HTMLVideoElement = none) →
        (checkVideoConversionSupport env).1 = Except.ok false) := by
  refine ⟨checkVideoConversionSupport_env env, by rw [checkVideoConversionSupport_env], ?_⟩
  obtain ⟨mr, canvas, vid⟩ := env
  dsimp only
  have hdef : ∀ g : Option TypeTag,
      typeofGlobal g ≠ TypeTag.undefined ↔ ∃ t, g = some t ∧ t ≠ TypeTag.undefined := by
    intro g
    cases g <;> simp [typeofGlobal]
  by_cases h1 : typeofGlobal mr ≠ TypeTag.undefined
  · by_cases h3 : typeofGlobal vid ≠ TypeTag.undefined
    · have d1 := (hdef mr).mp h1
      have d3 := (hdef vid).mp h3
      cases canvas with
      | undeclared =>
          have hres : (checkVideoConversionSupport
              ⟨mr, CanvasBinding.undeclared, vid⟩).1 = Except.ok false := by
            simp [checkVideoConversionSupport, typeofCanvas]
          rw [hres]
          refine ⟨⟨fun h => (by cases h), ?_⟩, ⟨fun h => (by cases h), ?_⟩,
            Or.inr (Or.inl rfl), fun _ => rfl⟩
          · rintro ⟨-, ⟨tag, -, h⟩, -⟩
            cases h
          · rintro ⟨-, h | ⟨tag, q, -, h, -⟩, -⟩ <;> cases h
      | undefined =>
          have hres : (checkVideoConversionSupport
              ⟨mr, CanvasBinding.undefined, vid⟩).1 = Except.ok false := by
            simp [checkVideoConversionSupport, typeofCanvas]
          rw [hres]
          refine ⟨⟨fun h => (by cases h), ?_⟩, ⟨fun h => (by cases h), ?_⟩,
            Or.inr (Or.inl rfl), fun _ => rfl⟩
          · rintro ⟨-, ⟨tag, -, h⟩, -⟩
            cases h
          · rintro ⟨-, h | ⟨tag, q, -, h, -⟩, -⟩ <;> cases h
      | null =>
          have hres : (checkVideoConversionSupport
              ⟨mr, CanvasBinding.null, vid⟩).1 = Except.error JSError.typeError := by
            simp [checkVideoConversionSupport, typeofCanvas, readPrototype, h1, h3]
          rw [hres]
          refine ⟨⟨fun h => (by cases h), ?_⟩,
            ⟨fun _ => ⟨d1, Or.inl rfl, d3⟩, fun _ => rfl⟩, Or.inr (Or.inr rfl), ?_⟩
          · rintro ⟨-, ⟨tag, -, h⟩, -⟩
            cases h
          · rintro (h | h | h)
            · obtain ⟨t, ht, -⟩ := d1
              rw [h] at ht
              cases ht
            · cases h
            · obtain ⟨t, ht, -⟩ := d3
              rw [h] at ht
              cases ht
      | value tag p =>
          have hM : ¬ (mr = none ∨ CanvasBinding.value tag p = CanvasBinding.undeclared ∨
              vid = none) := by
            rintro (h | h | h)
            · obtain ⟨t, ht, -⟩ := d1
              rw [h] at ht
              cases ht
            · cases h
            · obtain ⟨t, ht, -⟩ := d3
              rw [h] at ht
              cases ht
          by_cases h2 : tag = TypeTag.undefined
          · have hres : (checkVideoConversionSupport
                ⟨mr, CanvasBinding.value tag p, vid⟩).1 = Except.ok false := by
              simp [checkVideoConversionSupport, typeofCanvas, h2]
            rw [hres]
            refine ⟨⟨fun h => (by cases h), ?_⟩, ⟨fun h => (by cases h), ?_⟩,
              Or.inr (Or.inl rfl), fun _ => rfl⟩
            · rintro ⟨-, ⟨tag2, htag, h⟩, -⟩
              cases h
              exact absurd h2 htag
            · rintro ⟨-, h | ⟨tag2, q, htag, h, -⟩, -⟩
              · cases h
              · cases h
                exact absurd h2 htag
          · cases p with
            | undefined =>
                have hres : (checkVideoConversionSupport
                    ⟨mr, CanvasBinding.value tag PrototypeValue.undefined, vid⟩).1 =
                    Except.error JSError.typeError := by
                  simp [checkVideoConversionSupport, typeofCanvas, readPrototype,
                    typeofCaptureStream, h1, h2, h3]
                rw [hres]
                refine ⟨⟨fun h => (by cases h), ?_⟩,
                  ⟨fun _ => ⟨d1, Or.inr ⟨tag, _, h2, rfl, Or.inl rfl⟩, d3⟩,
                    fun _ => rfl⟩,
                  Or.inr (Or.inr rfl), fun h => absurd h hM⟩
                rintro ⟨-, ⟨tag2, -, h⟩, -⟩
                cases h
            | null =>
                have hres : (checkVideoConversionSupport
                    ⟨mr, CanvasBinding.value tag PrototypeValue.null, vid⟩).1 =
                    Except.error JSError.typeError := by
                  simp [checkVideoConversionSupport, typeofCanvas, readPrototype,
                    typeofCaptureStream, h1, h2, h3]
                rw [hres]
                refine ⟨⟨fun h => (by cases h), ?_⟩,
                  ⟨fun _ => ⟨d1, Or.inr ⟨tag, _, h2, rfl, Or.inr rfl⟩, d3⟩,
                    fun _ => rfl⟩,
                  Or.inr (Or.inr rfl), fun h => absurd h hM⟩
                rintro ⟨-, ⟨tag2, -, h⟩, -⟩
                cases h
            | value t =>
                by_cases hf : t = TypeTag.function
                · subst hf
                  have hres : (checkVideoConversionSupport
                      ⟨mr, CanvasBinding.value tag (PrototypeValue.value TypeTag.function),
                        vid⟩).1 = Except.ok true := by
                    simp [checkVideoConversionSupport, typeofCanvas, readPrototype,
                      typeofCaptureStream, h1, h2, h3]
                  rw [hres]
                  refine ⟨⟨fun _ => ⟨d1, ⟨tag, h2, rfl⟩, d3⟩, fun _ => rfl⟩,
                    ⟨fun h => (by cases h), ?_⟩, Or.inl rfl, fun h => absurd h hM⟩
                  rintro ⟨-, h | ⟨tag2, q, -, h, hq | hq⟩, -⟩
                  · cases h
                  · cases h
                    cases hq
                  · cases h
                    cases hq
                · have hres : (checkVideoConversionSupport
                      ⟨mr, CanvasBinding.value tag (PrototypeValue.value t), vid⟩).1 =
                      Except.ok false := by
                    simp [checkVideoConversionSupport, typeofCanvas, readPrototype,
                      typeofCaptureStream, h1, h2, h3, hf]
                  rw [hres]
                  refine ⟨⟨fun h => (by cases h), ?_⟩, ⟨fun h => (by cases h), ?_⟩,
                    Or.inr (Or.inl rfl), fun _ => rfl⟩
                  · rintro ⟨-, ⟨tag2, -, h⟩, -⟩
                    cases h
                    exact absurd rfl hf
                  · rintro ⟨-, h | ⟨tag2, q, -, h, hq | hq⟩, -⟩
                    · cases h
                    · cases h
                      cases hq
                    · cases h
                      cases hq
    · have d3 : ¬ ∃ t, vid = some t ∧ t ≠ TypeTag.undefined :=
        fun h => h3 ((hdef vid).mpr h)
      have hres : (checkVideoConversionSupport ⟨mr, canvas, vid⟩).1 = Except.ok false := by
        unfold checkVideoConversionSupport
        split_ifs <;> rfl
      rw [hres]
      exact ⟨⟨fun h => (by cases h), fun h => absurd h.2.2 d3⟩,
        ⟨fun h => (by cases h), fun h => absurd h.2.2 d3⟩, Or.inr (Or.inl rfl), fun _ => rfl⟩
  · have d1 : ¬ ∃ t, mr = some t ∧ t ≠ TypeTag.undefined := fun h => h1 ((hdef mr).mpr h)
    have hres : (checkVideoConversionSupport ⟨mr, canvas, vid⟩).1 = Except.ok false := by
      unfold checkVideoConversionSupport
      split_ifs <;> first | rfl | contradiction
    rw [hres]
    exact ⟨⟨fun h => (by cases h), fun h => absurd h.1 d1⟩,
      ⟨fun h => (by cases h), fun h => absurd h.1 d1⟩, Or.inr (Or.inl rfl), fun _ => rfl⟩

/-- C10 (amended), on a browser that has all the primitives. -/
theorem checkVideoConversionSupport_iff_witness :
    (checkVideoConversionSupport browserEnv).1 = Except.ok true :=
  (checkVideoConversionSupport_iff browserEnv).2.2.1.mpr
    ⟨⟨TypeTag.function, rfl, by decide⟩, ⟨TypeTag.function, by decide, rfl⟩,
      ⟨TypeTag.function, rfl, by decide⟩⟩

end Probe

/-! ## The pipeline: how the handlers change the state -/

section Handlers

open Pipeline

theorem drawFrame_mediaRecorder (o : Options) (s : Pipeline) (r : VideoReading) :
    (drawFrame o s r).mediaRecorder = s.mediaRecorder := by
  unfold drawFrame
  split_ifs <;> simp [Pipeline.emit]

theorem drawFrame_chunks (o : Options) (s : Pipeline) (r : VideoReading) :
    (drawFrame o s r).chunks = s.chunks := by
  unfold drawFrame
  split_ifs <;> simp [Pipeline.emit]

theorem drawFrame_settled (o : Options) (s : Pipeline) (r : VideoReading) :
    (drawFrame o s r).settled = s.settled := by
  unfold drawFrame
  split_ifs <;> simp [Pipeline.emit]

theorem onloadedmetadata_settled (o : Options) (s : Pipeline) (m : MetadataReading) :
    (onloadedmetadata o s m).settled = s.settled := by
  unfold onloadedmetadata
  split_ifs <;> simp [Pipeline.emit, drawFrame_settled]

theorem onloadedmetadata_chunks (o : Options) (s : Pipeline) (m : MetadataReading) :
    (onloadedmetadata o s m).chunks = s.chunks := by
  unfold onloadedmetadata
  split_ifs <;> simp [Pipeline.emit, drawFrame_chunks]

theorem onloadedmetadata_mediaRecorder (o : Options) (s : Pipeline) (m : MetadataReading) :
    (onloadedmetadata o s m).mediaRecorder = (s.mediaRecorder || m.completes) := by
  unfold onloadedmetadata MetadataReading.completes
  split_ifs <;> simp_all [Pipeline.emit, drawFrame_mediaRecorder]

theorem cancelPendingFrame_settled (s : Pipeline) :
    s.cancelPendingFrame.settled = s.settled := by
  unfold Pipeline.cancelPendingFrame
  split
  · split_ifs <;> simp [Pipeline.emit]
  · rfl

theorem cancelPendingFrame_chunks (s : Pipeline) :
    s.cancelPendingFrame.chunks = s.chunks := by
  unfold Pipeline.cancelPendingFrame
  split
  · split_ifs <;> simp [Pipeline.emit]
  · rfl

theorem cancelPendingFrame_mediaRecorder (s : Pipeline) :
    s.cancelPendingFrame.mediaRecorder = s.mediaRecorder := by
  unfold Pipeline.cancelPendingFrame
  split
  · split_ifs <;> simp [Pipeline.emit]
  · rfl

/-- A settled promise stays as it is under `resolve`. -/
theorem resolve_settled_of_some (s : Pipeline) (b : Blob) (out : Outcome)
    (h : s.settled = some out) : (s.resolve b).settled = some out := by
  simp [Pipeline.resolve, h]

/-- A settled promise stays as it is under `reject`. -/
theorem reject_settled_of_some (s : Pipeline) (e : Failure) (out : Outcome)
    (h : s.settled = some out) : (s.reject e).settled = some out := by
  simp [Pipeline.reject, h]

/-- No event changes a promise that is already settled. -/
theorem step_settled_of_some (o : Options) (s : Pipeline) (e : Event) (out : Outcome)
    (h : s.settled = some out) : (step o s e).settled = some out := by
  cases e with
  | loadedmetadata m => simpa [step, onloadedmetadata_settled] using h
  | canplay r =>
      cases r with
      | none => simpa [step, oncanplay, Pipeline.emit] using h
      | some reason =>
          exact reject_settled_of_some _ _ _ (by simpa [Pipeline.emit] using h)
  | videoError =>
      exact reject_settled_of_some _ _ _ (by simpa [Pipeline.emit] using h)
  | animationFrame r =>
      by_cases hr : s.mediaRecorder = true <;> simp [step, hr, drawFrame_settled, h]
  | dataavailable d =>
      by_cases hr : s.mediaRecorder = true
      · simp only [step, hr, if_true, ondataavailable]
        split_ifs <;> simpa using h
      · simp [step, hr, h]
  | recorderStop =>
      by_cases hr : s.mediaRecorder = true
      · simp only [step, hr, if_true, onstop]
        exact resolve_settled_of_some _ _ _
          (by simpa [Pipeline.emit, cancelPendingFrame_settled] using h)
      · simp [step, hr, h]
  | recorderError err =>
      by_cases hr : s.mediaRecorder = true
      · simp only [step, hr, if_true, onerror]
        exact reject_settled_of_some _ _ _
          (by simpa [Pipeline.emit, cancelPendingFrame_settled] using h)
      · simp [step, hr, h]

/-- No run changes a promise that is already settled. -/
theorem run_settled_of_some (o : Options) (evs : List Event) (s : Pipeline) (out : Outcome)
    (h : s.settled = some out) : (run o s evs).settled = some out := by
  induction evs generalizing s with
  | nil => simpa [run] using h
  | cons e es ih =>
      have := ih (step o s e) (step_settled_of_some o s e out h)
      simpa [run] using this

/-- An event that calls neither `resolve` nor `reject` leaves the promise as it is. -/
theorem step_settled_of_not_settles (o : Options) (s : Pipeline) (e : Event)
    (h : e.settles = false) : (step o s e).settled = s.settled := by
  cases e with
  | loadedmetadata m => simp [step, onloadedmetadata_settled]
  | canplay r =>
      cases r with
      | none => simp [step, oncanplay, Pipeline.emit]
      | some reason => simp [Event.settles] at h
  | videoError => simp [Event.settles] at h
  | animationFrame r =>
      by_cases hr : s.mediaRecorder = true <;> simp [step, hr, drawFrame_settled]
  | dataavailable d =>
      by_cases hr : s.mediaRecorder = true
      · simp only [step, hr, if_true, ondataavailable]
        split_ifs <;> rfl
      · simp [step, hr]
  | recorderStop => simp [Event.settles] at h
  | recorderError err => simp [Event.settles] at h

theorem run_nil (o : Options) (s : Pipeline) : run o s [] = s := rfl

theorem run_cons (o : Options) (s : Pipeline) (e : Event) (es : List Event) :
    run o s (e :: es) = run o (step o s e) es := rfl

theorem run_append (o : Options) (s : Pipeline) (es fs : List Event) :
    run o s (es ++ fs) = run o (run o s es) fs := by
  simp [run, List.foldl_append]

theorem progressValues_append (l1 l2 : List Effect) :
    progressValues (l1 ++ l2) = progressValues l1 ++ progressValues l2 := by
  induction l1 with
  | nil => rfl
  | cons e l ih => cases e <;> simp [progressValues, ih]

/-- One run of `drawFrame` appends calls to the log that never touch the promise and never
start the recorder; the observer gets the value `emitted` describes. -/
theorem drawFrame_log (o : Options) (s : Pipeline) (r : VideoReading) :
    ∃ rest, (drawFrame o s r).log = s.log ++ rest ∧
      (∀ e, Effect.reject e ∉ rest) ∧ (∀ b, Effect.resolve b ∉ rest) ∧
      Effect.recorderStart ∉ rest ∧ Effect.revokeObjectURL ∉ rest ∧
      progressValues rest = (emitted o r).toList := by
  by_cases h1 : (r.ended || r.paused) = true
  · by_cases h2 : (s.mediaRecorder && decide (r.recorderState = RecorderState.recording)) = true
    · exact ⟨[Effect.recorderStop], by simp [drawFrame, h1, h2, Pipeline.emit], by simp,
        by simp, by simp, by simp, by simp [emitted, h1, progressValues]⟩
    · exact ⟨[], by simp [drawFrame, h1, h2], by simp, by simp, by simp, by simp,
        by simp [emitted, h1, progressValues]⟩
  · by_cases h3 : (o.onProgress && r.duration.truthy) = true
    · exact ⟨[Effect.drawImage s.canvasWidth s.canvasHeight, Effect.onProgress (progressOf r),
          Effect.requestAnimationFrame r.frameId],
        by simp [drawFrame, h1, h3, Pipeline.emit], by simp, by simp, by simp, by simp,
        by simp [emitted, h1, h3, progressValues]⟩
    · exact ⟨[Effect.drawImage s.canvasWidth s.canvasHeight,
          Effect.requestAnimationFrame r.frameId],
        by simp [drawFrame, h1, h3, Pipeline.emit], by simp, by simp, by simp, by simp,
        by simp [emitted, h1, h3, progressValues]⟩

/-- The log only grows in the `loadedmetadata` handler, by calls that never touch the promise
and that start with `captureStream` at the target rate. -/
theorem onloadedmetadata_log (o : Options) (s : Pipeline) (m : MetadataReading) :
    ∃ rest, (onloadedmetadata o s m).log =
        s.log ++ Effect.captureStream (targetFps o m.totalVideoFrames m.video.duration) :: rest ∧
      (∀ e, Effect.reject e ∉ rest) ∧ (∀ b, Effect.resolve b ∉ rest) ∧
      (m.captureStreamThrows = false →
        Effect.newMediaRecorder (mimeType m.vp9 m.vp8)
          (finalBitrate o m.videoWidth m.videoHeight) ∈ rest) ∧
      (m.completes = true → Effect.recorderStart ∈ rest) ∧
      (m.completes = false → Effect.recorderStart ∉ rest) ∧
      progressValues rest = if m.completes then (emitted o m.video).toList else [] := by
  by_cases h1 : m.captureStreamThrows = true
  · exact ⟨[], by simp [onloadedmetadata, h1, Pipeline.emit], by simp, by simp, by simp [h1],
      by simp [MetadataReading.completes, h1], by simp,
      by simp [MetadataReading.completes, h1, progressValues]⟩
  · by_cases h2 : m.recorderThrows = true
    · exact ⟨[Effect.newMediaRecorder (mimeType m.vp9 m.vp8)
          (finalBitrate o m.videoWidth m.videoHeight)],
        by simp [onloadedmetadata, h1, h2, Pipeline.emit], by simp, by simp, by simp,
        by simp [MetadataReading.completes, h2], by simp,
        by simp [MetadataReading.completes, h2, progressValues]⟩
    · obtain ⟨rest, hlog, hrej, hres, hstart, -, hprog⟩ := drawFrame_log o
        { mediaRecorder := true, animationFrameId := s.animationFrameId, chunks := s.chunks,
          canvasWidth := m.videoWidth, canvasHeight := m.videoHeight, settled := s.settled,
          log := s.log ++
            [Effect.captureStream (targetFps o m.totalVideoFrames m.video.duration),
              Effect.newMediaRecorder (mimeType m.vp9 m.vp8)
                (finalBitrate o m.videoWidth m.videoHeight),
              Effect.recorderStart, Effect.play] } m.video
      refine ⟨[Effect.newMediaRecorder (mimeType m.vp9 m.vp8)
          (finalBitrate o m.videoWidth m.videoHeight), Effect.recorderStart, Effect.play] ++ rest,
        ?_, ?_, ?_, ?_, ?_, ?_, ?_⟩
      · simp only [onloadedmetadata, h1, h2, Pipeline.emit, List.append_assoc,
          List.singleton_append, List.cons_append, List.nil_append, if_false,
          Bool.false_eq_true] at hlog ⊢
        exact hlog
      · intro e; simpa using hrej e
      · intro b; simpa using hres b
      · intro _; simp
      · intro _; simp
      · intro hc; simp [MetadataReading.completes, h1, h2] at hc
      · simp [progressValues_append, progressValues, hprog, MetadataReading.completes, h1, h2]

/-- The stop handler resolves a pending promise with the blob of the accumulated chunks. -/
theorem onstop_settled (s : Pipeline) (hp : s.settled = none) :
    (onstop s).settled = some (Outcome.resolved { parts := s.chunks, type := "video/webm" }) := by
  simp [onstop, Pipeline.resolve, Pipeline.emit, cancelPendingFrame_settled,
    cancelPendingFrame_chunks, hp]

/-- The recorder exists after an event exactly as `recorderAfter` says. -/
theorem step_mediaRecorder (o : Options) (s : Pipeline) (e : Event) :
    (step o s e).mediaRecorder = recorderAfter s.mediaRecorder e := by
  cases e with
  | loadedmetadata m => simp [step, recorderAfter, onloadedmetadata_mediaRecorder]
  | canplay r => cases r <;> simp [step, recorderAfter, oncanplay, Pipeline.emit, Pipeline.reject]
  | videoError => simp [step, recorderAfter, onVideoError, Pipeline.emit, Pipeline.reject]
  | animationFrame r =>
      by_cases hr : s.mediaRecorder = true <;>
        simp [step, recorderAfter, hr, drawFrame_mediaRecorder]
  | dataavailable d =>
      by_cases hr : s.mediaRecorder = true
      · simp only [step, hr, if_true, ondataavailable, recorderAfter]
        split_ifs <;> simp [hr]
      · simp [step, recorderAfter, hr]
  | recorderStop =>
      by_cases hr : s.mediaRecorder = true <;>
        simp [step, recorderAfter, hr, onstop, Pipeline.emit, Pipeline.resolve,
          cancelPendingFrame_mediaRecorder]
  | recorderError err =>
      by_cases hr : s.mediaRecorder = true <;>
        simp [step, recorderAfter, hr, onerror, Pipeline.emit, Pipeline.reject,
          cancelPendingFrame_mediaRecorder]

theorem cancelPendingFrame_progress (s : Pipeline) :
    progressValues s.cancelPendingFrame.log = progressValues s.log := by
  unfold Pipeline.cancelPendingFrame
  split
  · split_ifs <;> simp [Pipeline.emit, progressValues_append, progressValues]
  · rfl

theorem filterMap_singleton_toList (f : VideoReading → Option JSNum) (r : VideoReading) :
    [r].filterMap f = (f r).toList := by
  cases h : f r <;> simp [List.filterMap_cons, h]

/-- The observer calls of one event are those of the readings `drawFrame` takes. -/
theorem step_progress (o : Options) (s : Pipeline) (e : Event) :
    progressValues (step o s e).log =
      progressValues s.log ++ (stepReadings s.mediaRecorder e).filterMap (emitted o) := by
  cases e with
  | loadedmetadata m =>
      obtain ⟨rest, hlog, -, -, -, -, -, hprog⟩ := onloadedmetadata_log o s m
      simp only [step, hlog, progressValues_append, progressValues, hprog, stepReadings]
      by_cases hc : m.completes = true
      · simp [hc, filterMap_singleton_toList]
      · simp [hc]
  | canplay r =>
      cases r <;>
        simp [step, stepReadings, oncanplay, Pipeline.emit, Pipeline.reject,
          progressValues_append, progressValues]
  | videoError =>
      simp [step, stepReadings, onVideoError, Pipeline.emit, Pipeline.reject,
        progressValues_append, progressValues]
  | animationFrame r =>
      by_cases hr : s.mediaRecorder = true
      · obtain ⟨rest, hlog, -, -, -, -, hprog⟩ := drawFrame_log o s r
        simp [step, stepReadings, hr, hlog, progressValues_append, hprog,
          filterMap_singleton_toList]
      · simp [step, stepReadings, hr]
  | dataavailable d =>
      by_cases hr : s.mediaRecorder = true
      · simp only [step, hr, if_true, ondataavailable, stepReadings]
        split_ifs <;> simp
      · simp [step, stepReadings, hr]
  | recorderStop =>
      by_cases hr : s.mediaRecorder = true <;>
        simp [step, stepReadings, hr, onstop, Pipeline.emit, Pipeline.resolve,
          progressValues_append, progressValues, cancelPendingFrame_progress]
  | recorderError err =>
      by_cases hr : s.mediaRecorder = true <;>
        simp [step, stepReadings, hr, onerror, Pipeline.emit, Pipeline.reject,
          progressValues_append, progressValues, cancelPendingFrame_progress]

/-- The observer calls of a run are those of the readings of the copy loop, in order. -/
theorem run_progress (o : Options) (evs : List Event) (s : Pipeline) :
    progressValues (run o s evs).log =
      progressValues s.log ++ (copyLoopReadings s.mediaRecorder evs).filterMap (emitted o) := by
  induction evs generalizing s with
  | nil => simp [run, copyLoopReadings]
  | cons e es ih =>
      rw [run_cons, ih, step_progress, step_mediaRecorder]
      simp [copyLoopReadings, List.filterMap_append]

/-- The operator `<=` is transitive. -/
theorem JSNum.le_transitive (a b c : JSNum) (hab : JSNum.le a b = true)
    (hbc : JSNum.le b c = true) :
    JSNum.le a c = true := by
  cases a <;> cases b <;> cases c <;> simp_all [JSNum.le]
  exact hab.trans hbc

/-- One event appends to `chunks` the chunk it delivers, if that chunk is not empty. -/
theorem step_chunks (o : Options) (s : Pipeline) (e : Event) :
    (step o s e).chunks = s.chunks ++ (stepData s.mediaRecorder e).filter Chunk.nonEmpty := by
  cases e with
  | loadedmetadata m => simp [step, stepData, onloadedmetadata_chunks]
  | canplay r => cases r <;> simp [step, stepData, oncanplay, Pipeline.emit, Pipeline.reject]
  | videoError => simp [step, stepData, onVideoError, Pipeline.emit, Pipeline.reject]
  | animationFrame r =>
      by_cases hr : s.mediaRecorder = true <;> simp [step, stepData, hr, drawFrame_chunks]
  | dataavailable d =>
      by_cases hr : s.mediaRecorder = true
      · by_cases hd : 0 < d.size
        · simp [step, stepData, hr, ondataavailable, hd, Chunk.nonEmpty]
        · simp [step, stepData, hr, ondataavailable, hd, Chunk.nonEmpty]
      · simp [step, stepData, hr]
  | recorderStop =>
      by_cases hr : s.mediaRecorder = true <;>
        simp [step, stepData, hr, onstop, Pipeline.emit, Pipeline.resolve,
          cancelPendingFrame_chunks]
  | recorderError err =>
      by_cases hr : s.mediaRecorder = true <;>
        simp [step, stepData, hr, onerror, Pipeline.emit, Pipeline.reject,
          cancelPendingFrame_chunks]

/-- A run appends to `chunks` the non-empty chunks it delivers, in arrival order. -/
theorem run_chunks (o : Options) (evs : List Event) (s : Pipeline) :
    (run o s evs).chunks =
      s.chunks ++ (deliveredData s.mediaRecorder evs).filter Chunk.nonEmpty := by
  induction evs generalizing s with
  | nil => simp [run, deliveredData]
  | cons e es ih =>
      rw [run_cons, ih, step_chunks, step_mediaRecorder]
      simp [deliveredData, List.filter_append]

/-- A run of events that call neither `resolve` nor `reject` leaves the promise as it is. -/
theorem run_settled_of_not_settles (o : Options) (evs : List Event) (s : Pipeline)
    (h : ∀ e ∈ evs, e.settles = false) : (run o s evs).settled = s.settled := by
  induction evs generalizing s with
  | nil => rfl
  | cons e es ih =>
      rw [run_cons, ih (step o s e) (fun e' he' => h e' (List.mem_cons_of_mem _ he'))]
      exact step_settled_of_not_settles o s e (h e (List.mem_cons_self _ _))

end Handlers

/-! ## The pipeline: the claims -/

section Claims

open Pipeline

/-- C9: the data handler appends a chunk exactly when its size is positive; over any sequence
of events that do not settle the promise (data events, animation frames and the like, in any
interleaving) the accumulator only grows, by the delivered chunks of positive size in arrival
order; a stop arriving then, with the recorder in existence, resolves the pending promise with
the blob of exactly those chunks, the empty blob when no chunk of positive size arrived. -/
theorem chunks_collected_in_order (o : Options) (s : Pipeline) (evs : List Event)
    (hp : s.settled = none) (hn : ∀ e ∈ evs, e.settles = false)
    (hr : (run o s evs).mediaRecorder = true) :
    (∀ (t : Pipeline) (d : Chunk), (ondataavailable t d).chunks =
        if 0 < d.size then t.chunks ++ [d] else t.chunks) ∧
      (run o s evs).chunks =
        s.chunks ++ (deliveredData s.mediaRecorder evs).filter Chunk.nonEmpty ∧
      (run o s (evs ++ [Event.recorderStop])).settled =
        some (Outcome.resolved
          { parts := s.chunks ++ (deliveredData s.mediaRecorder evs).filter Chunk.nonEmpty,
            type := "video/webm" }) ∧
      (s.chunks = [] → (∀ d ∈ deliveredData s.mediaRecorder evs, d.size = 0) →
        (run o s (evs ++ [Event.recorderStop])).settled =
          some (Outcome.resolved { parts := [], type := "video/webm" })) := by
  have hstop : (run o s (evs ++ [Event.recorderStop])).settled =
      some (Outcome.resolved
        { parts := s.chunks ++ (deliveredData s.mediaRecorder evs).filter Chunk.nonEmpty,
          type := "video/webm" }) := by
    rw [run_append, run_cons, run_nil]
    simp only [step, hr, if_true]
    rw [onstop_settled _ (by rw [run_settled_of_not_settles o evs s hn, hp]), run_chunks]
  refine ⟨?_, run_chunks o evs s, hstop, ?_⟩
  · intro t d
    unfold ondataavailable
    split_ifs <;> rfl
  · intro hc hz
    rw [hstop, hc]
    have : (deliveredData s.mediaRecorder evs).filter Chunk.nonEmpty = [] := by
      rw [List.filter_eq_nil_iff]
      intro d hd
      simp [Chunk.nonEmpty, hz d hd]
    rw [this]
    rfl

/-- C9, on the component request: the metadata of the sample source, then one chunk, one
animation frame, one empty chunk, one more chunk and the stop. -/
theorem chunks_collected_in_order_witness :
    (convertVideoToWebM componentOptions
        ([Event.loadedmetadata sampleMetadata, Event.dataavailable ⟨4, 0⟩,
          Event.animationFrame (playingAt 5 2), Event.dataavailable ⟨0, 1⟩,
          Event.dataavailable ⟨7, 2⟩] ++ [Event.recorderStop])).settled =
      some (Outcome.resolved { parts := [⟨4, 0⟩, ⟨7, 2⟩], type := "video/webm" }) := by
  have h := (chunks_collected_in_order componentOptions init
    [Event.loadedmetadata sampleMetadata, Event.dataavailable ⟨4, 0⟩,
      Event.animationFrame (playingAt 5 2), Event.dataavailable ⟨0, 1⟩,
      Event.dataavailable ⟨7, 2⟩] rfl
    (by intro e he; simp at he; rcases he with rfl | rfl | rfl | rfl | rfl <;> rfl)
    (by simp [run, step, onloadedmetadata_mediaRecorder, drawFrame_mediaRecorder,
      MetadataReading.completes, sampleMetadata, ondataavailable, Pipeline.init])).2.2.1
  unfold convertVideoToWebM
  rw [h]
  simp [deliveredData, stepData, recorderAfter, MetadataReading.completes, sampleMetadata,
    Pipeline.init, Chunk.nonEmpty]

/-- C7 (the code at the failing input): when `video.play()` rejects in the `canplay` handler,
`reject` is called and nothing revokes the object URL: the handler only adds the calls `play`
and `reject` to the log, so that a run consisting of this event ends rejected with no
`revokeObjectURL` call, whereas the two sibling handlers revoke the URL right before they
reject. -/
theorem play_rejection_keeps_object_url (s : Pipeline) (reason error : String) :
    (oncanplay s (some reason)).log =
        s.log ++ [Effect.play, Effect.reject (Failure.playRejected reason)] ∧
      (convertVideoToWebM componentOptions [Event.canplay (some reason)]).settled =
        some (Outcome.rejected (Failure.playRejected reason)) ∧
      revokeCount (convertVideoToWebM componentOptions [Event.canplay (some reason)]).log = 0 ∧
      (onVideoError s).log =
        s.log ++ [Effect.revokeObjectURL, Effect.reject Failure.videoLoadFailed] ∧
      (onerror s error).log = s.cancelPendingFrame.log ++
        [Effect.revokeObjectURL, Effect.reject (Failure.recordingFailed error)] := by
  refine ⟨?_, ?_, ?_, ?_, ?_⟩
  · simp [oncanplay, Pipeline.reject, Pipeline.emit]
  · simp [convertVideoToWebM, run, step, oncanplay, Pipeline.reject, Pipeline.emit, Pipeline.init]
  · simp [convertVideoToWebM, run, step, oncanplay, Pipeline.reject, Pipeline.emit,
      Pipeline.init, revokeCount]
  · simp [onVideoError, Pipeline.reject, Pipeline.emit]
  · simp [onerror, Pipeline.reject, Pipeline.emit]

/-- C3 (as stated, refuted): with the override `fps: 0`, and likewise with `fps: -1` on a
browser whose `captureStream` does not throw, the metadata handler leaves the promise pending
and calls `mediaRecorder.start()`; the data handler is installed and collects a chunk. -/
theorem nonpositive_fps_starts_encoder :
    (convertVideoToWebM zeroFpsOptions [Event.loadedmetadata sampleMetadata]).settled = none ∧
      Effect.recorderStart ∈
        (convertVideoToWebM zeroFpsOptions [Event.loadedmetadata sampleMetadata]).log ∧
      (convertVideoToWebM negativeFpsOptions [Event.loadedmetadata sampleMetadata]).settled =
        none ∧
      Effect.recorderStart ∈
        (convertVideoToWebM negativeFpsOptions [Event.loadedmetadata sampleMetadata]).log ∧
      (convertVideoToWebM negativeFpsOptions
        [Event.loadedmetadata sampleMetadata, Event.dataavailable ⟨5, 0⟩]).chunks =
          [⟨5, 0⟩] := by
  refine ⟨?_, ?_, ?_, ?_, ?_⟩ <;>
    simp [convertVideoToWebM, run, step, onloadedmetadata, drawFrame, sampleMetadata,
      playingAt, Pipeline.init, Pipeline.emit, ondataavailable, zeroFpsOptions,
      negativeFpsOptions]

/-- C3 (amended): a zero or negative frame-rate override is not rejected.  The metadata handler
leaves the promise pending and never calls `reject`; a zero override counts as no override, so
the automatic rate is used, a negative override is the target rate unchanged; the target
rate is handed to `canvas.captureStream`, and when neither that call nor the `MediaRecorder`
constructor throws, `mediaRecorder.start()` is called. -/
theorem nonpositive_fps_not_rejected (o : Options) (m : MetadataReading) (q : ℚ)
    (hf : o.fps = NumOption.num (JSNum.fin q)) (hq : q ≤ 0) :
    (convertVideoToWebM o [Event.loadedmetadata m]).settled = none ∧
      (∀ e, Effect.reject e ∉ (convertVideoToWebM o [Event.loadedmetadata m]).log) ∧
      (targetFps o m.totalVideoFrames m.video.duration =
        if q < 0 then JSNum.fin q else autoFps m.totalVideoFrames m.video.duration) ∧
      Effect.captureStream (targetFps o m.totalVideoFrames m.video.duration) ∈
        (convertVideoToWebM o [Event.loadedmetadata m]).log ∧
      (m.completes = true →
        Effect.recorderStart ∈ (convertVideoToWebM o [Event.loadedmetadata m]).log) := by
  obtain ⟨rest, hlog, hrej, -, -, hstart, -, -⟩ := onloadedmetadata_log o init m
  have hinit : init.log = [] := rfl
  refine ⟨?_, ?_, ?_, ?_, ?_⟩
  · simp [convertVideoToWebM, run, step, onloadedmetadata_settled, Pipeline.init]
  · intro e
    simp only [convertVideoToWebM, run, List.foldl, step, hlog, hinit, List.nil_append,
      List.mem_cons, not_or]
    exact ⟨by simp, hrej e⟩
  · by_cases hneg : q < 0
    · simp [targetFps, fpsDefault, targetFpsOf, hf, JSNum.truthy, ne_of_lt hneg, hneg]
    · have h0 : q = 0 := le_antisymm hq (not_lt.mp hneg)
      simp [targetFps, fpsDefault, targetFpsOf, hf, h0, JSNum.truthy]
  · simp [convertVideoToWebM, run, step, hlog]
  · intro hc
    simp [convertVideoToWebM, run, step, hlog, hstart hc]

/-- C3 (amended), at the override `fps: -1` on the sample source. -/
theorem nonpositive_fps_not_rejected_witness :
    (convertVideoToWebM negativeFpsOptions [Event.loadedmetadata sampleMetadata]).settled =
      none :=
  (nonpositive_fps_not_rejected negativeFpsOptions sampleMetadata (-1) rfl (by norm_num)).1

/-- C4 (as stated, refuted): on a browser that supports neither VP9 nor VP8 the metadata
handler constructs the recorder with the container `video/webm`, starts it and leaves the
promise pending. -/
theorem no_codec_still_starts_encoder :
    (convertVideoToWebM componentOptions [Event.loadedmetadata sampleMetadataNoCodec]).settled =
        none ∧
      Effect.newMediaRecorder "video/webm" (JSNum.fin 15000000) ∈
        (convertVideoToWebM componentOptions [Event.loadedmetadata sampleMetadataNoCodec]).log ∧
      Effect.recorderStart ∈
        (convertVideoToWebM componentOptions [Event.loadedmetadata sampleMetadataNoCodec]).log := by
  refine ⟨?_, ?_, ?_⟩ <;>
    simp [convertVideoToWebM, run, step, onloadedmetadata, drawFrame, sampleMetadataNoCodec,
      sampleMetadata, playingAt, Pipeline.init, Pipeline.emit, componentOptions, mimeType,
      finalBitrate, bitrateDefault, finalBitrateOf, autoBitrate, JSNum.truthy]

/-- C4 (amended): when `isTypeSupported` is false for both codecs the code does not fail: the
container falls back to `video/webm`, the metadata handler leaves the promise pending and never
calls `reject`, the `MediaRecorder` constructor is called with `video/webm` when
`captureStream` returns, and `mediaRecorder.start()` is called when the constructor returns
too. -/
theorem no_codec_falls_back_to_webm (o : Options) (m : MetadataReading)
    (h9 : m.vp9 = false) (h8 : m.vp8 = false) :
    mimeType m.vp9 m.vp8 = "video/webm" ∧
      (convertVideoToWebM o [Event.loadedmetadata m]).settled = none ∧
      (∀ e, Effect.reject e ∉ (convertVideoToWebM o [Event.loadedmetadata m]).log) ∧
      (m.captureStreamThrows = false →
        Effect.newMediaRecorder "video/webm" (finalBitrate o m.videoWidth m.videoHeight) ∈
          (convertVideoToWebM o [Event.loadedmetadata m]).log) ∧
      (m.completes = true →
        Effect.recorderStart ∈ (convertVideoToWebM o [Event.loadedmetadata m]).log) := by
  obtain ⟨rest, hlog, hrej, -, hnew, hstart, -, -⟩ := onloadedmetadata_log o init m
  have hinit : init.log = [] := rfl
  have hmime : mimeType m.vp9 m.vp8 = "video/webm" := by
    simp [mimeType, h9, h8]
  refine ⟨hmime, ?_, ?_, ?_, ?_⟩
  · simp [convertVideoToWebM, run, step, onloadedmetadata_settled, Pipeline.init]
  · intro e
    simp only [convertVideoToWebM, run, List.foldl, step, hlog, hinit, List.nil_append,
      List.mem_cons, not_or]
    exact ⟨by simp, hrej e⟩
  · intro hc
    have := hnew hc
    rw [hmime] at this
    simp [convertVideoToWebM, run, step, hlog, this]
  · intro hc
    simp [convertVideoToWebM, run, step, hlog, hstart hc]

/-- C4 (amended), on the sample source without codec support. -/
theorem no_codec_falls_back_to_webm_witness :
    mimeType sampleMetadataNoCodec.vp9 sampleMetadataNoCodec.vp8 = "video/webm" :=
  (no_codec_falls_back_to_webm componentOptions sampleMetadataNoCodec rfl rfl).1

/-- C5 (as stated, refuted): after a source error has rejected the promise, the next animation
frame still runs `drawFrame`, which calls the observer with `50` and stores a new frame id;
and a data event after the stop that resolved the promise still appends to `chunks`. -/
theorem events_after_settlement_still_act :
    (convertVideoToWebM componentOptions
        [Event.loadedmetadata sampleMetadata, Event.videoError]).settled =
        some (Outcome.rejected Failure.videoLoadFailed) ∧
      progressValues (convertVideoToWebM componentOptions
        [Event.loadedmetadata sampleMetadata, Event.videoError]).log = [JSNum.fin 0] ∧
      progressValues (convertVideoToWebM componentOptions
        [Event.loadedmetadata sampleMetadata, Event.videoError,
          Event.animationFrame (playingAt 5 2)]).log = [JSNum.fin 0, JSNum.fin 50] ∧
      (convertVideoToWebM componentOptions
        [Event.loadedmetadata sampleMetadata, Event.videoError]).animationFrameId = some 1 ∧
      (convertVideoToWebM componentOptions
        [Event.loadedmetadata sampleMetadata, Event.videoError,
          Event.animationFrame (playingAt 5 2)]).animationFrameId = some 2 ∧
      (convertVideoToWebM componentOptions
        [Event.loadedmetadata sampleMetadata, Event.recorderStop]).settled =
        some (Outcome.resolved { parts := [], type := "video/webm" }) ∧
      (convertVideoToWebM componentOptions
        [Event.loadedmetadata sampleMetadata, Event.recorderStop]).chunks = [] ∧
      (convertVideoToWebM componentOptions
        [Event.loadedmetadata sampleMetadata, Event.recorderStop,
          Event.dataavailable ⟨5, 0⟩]).chunks = [⟨5, 0⟩] := by
  refine ⟨?_, ?_, ?_, ?_, ?_, ?_, ?_, ?_⟩ <;>
    simp [convertVideoToWebM, run, step, onloadedmetadata, drawFrame, sampleMetadata,
      componentOptions, playingAt, Pipeline.init, Pipeline.emit, onVideoError, Pipeline.reject,
      progressValues, progressOf, JSNum.div, JSNum.mul, JSNum.truthy, onstop, Pipeline.resolve,
      Pipeline.cancelPendingFrame, ondataavailable]
  norm_num

/-- C5 (amended): the promise is settled at most once, for every state and event sequence:
an outcome, once produced, is the outcome after every further event; events that call neither
`resolve` nor `reject` leave the promise as it is, so that a sequence without a source error,
a rejected play, a recorder stop or a recorder error produces no outcome; and after a source
error, a rejected play or, once the recorder exists, a recorder stop or error, an outcome
exists. -/
theorem promise_settles_at_most_once (o : Options) (s : Pipeline) (evs : List Event) :
    (∀ out, s.settled = some out → (run o s evs).settled = some out) ∧
      ((∀ e ∈ evs, e.settles = false) → (run o s evs).settled = s.settled) ∧
      (∀ e : Event, e.settles = true →
        ((run o s evs).mediaRecorder = true ∨ e = Event.videoError ∨
          ∃ reason, e = Event.canplay (some reason)) →
        (run o s (evs ++ [e])).settled ≠ none) := by
  refine ⟨fun out h => run_settled_of_some o evs s out h, ?_, ?_⟩
  · exact fun h => run_settled_of_not_settles o evs s h
  · intro e he hc
    rw [run_append, run_cons, run_nil]
    generalize run o s evs = t at hc
    cases e with
    | loadedmetadata m => simp [Event.settles] at he
    | canplay r =>
        cases r with
        | none => simp [Event.settles] at he
        | some reason =>
            simp only [step, oncanplay, Pipeline.reject]
            cases h : t.settled <;> simp [Pipeline.emit, h]
    | videoError =>
        simp only [step, onVideoError, Pipeline.reject]
        cases h : t.settled <;> simp [Pipeline.emit, h]
    | animationFrame r => simp [Event.settles] at he
    | dataavailable d => simp [Event.settles] at he
    | recorderStop =>
        have hr : t.mediaRecorder = true := by simpa using hc
        simp only [step, hr, if_true, onstop, Pipeline.resolve]
        cases h : (t.cancelPendingFrame.emit Effect.revokeObjectURL).settled <;> simp [h]
    | recorderError err =>
        have hr : t.mediaRecorder = true := by simpa using hc
        simp only [step, hr, if_true, onerror, Pipeline.reject]
        cases h : (t.cancelPendingFrame.emit Effect.revokeObjectURL).settled <;> simp [h]

/-- The progress value of a finite position on a finite non-zero duration. -/
theorem progressOf_fin (r : VideoReading) (c d : ℚ) (hc : r.currentTime = JSNum.fin c)
    (hd : r.duration = JSNum.fin d) (hd0 : d ≠ 0) :
    progressOf r = JSNum.fin (c / d * 100) := by
  simp [progressOf, hc, hd, JSNum.div, JSNum.mul, hd0]

/-- A position between `0` and a finite duration is finite. -/
theorem position_fin (x : JSNum) (d : ℚ) (h0 : JSNum.le (JSNum.fin 0) x = true)
    (hd : JSNum.le x (JSNum.fin d) = true) :
    ∃ c : ℚ, x = JSNum.fin c ∧ 0 ≤ c ∧ c ≤ d := by
  cases x with
  | nan => simp [JSNum.le] at h0
  | posInf => simp [JSNum.le] at hd
  | negInf => simp [JSNum.le] at h0
  | fin c => exact ⟨c, rfl, by simpa [JSNum.le] using h0, by simpa [JSNum.le] using hd⟩

/-- C6 (as stated, refuted): on a ten second source read at position `10` while the video is
neither ended nor paused, the hypotheses of the claim hold and `drawFrame` hands `100` to the
observer, which is not below `100`. -/
theorem progress_reaches_hundred :
    copyLoopReadings false [Event.loadedmetadata sampleMetadata,
        Event.animationFrame (playingAt 10 2)] = [playingAt 0 1, playingAt 10 2] ∧
      (∀ r ∈ [playingAt 0 1, playingAt 10 2], r.duration = JSNum.fin 10 ∧
        JSNum.le (JSNum.fin 0) r.currentTime = true ∧
        JSNum.le r.currentTime (JSNum.fin 10) = true) ∧
      List.Chain' positionLe [playingAt 0 1, playingAt 10 2] ∧
      progressValues (convertVideoToWebM componentOptions [Event.loadedmetadata sampleMetadata,
        Event.animationFrame (playingAt 10 2)]).log = [JSNum.fin 0, JSNum.fin 100] ∧
      JSNum.lt (JSNum.fin 100) (JSNum.fin 100) = false := by
  refine ⟨?_, ?_, ?_, ?_, ?_⟩
  · simp [copyLoopReadings, stepReadings, recorderAfter, MetadataReading.completes,
      sampleMetadata]
  · intro r hr
    simp only [List.mem_cons, List.mem_singleton, List.not_mem_nil, or_false] at hr
    rcases hr with rfl | rfl <;> simp [playingAt, JSNum.le]
  · simp [positionLe, playingAt, JSNum.le]
  · simp [convertVideoToWebM, run, step, onloadedmetadata, drawFrame, sampleMetadata,
      componentOptions, playingAt,
      Pipeline.init, Pipeline.emit, progressValues, progressOf, JSNum.div, JSNum.mul,
      JSNum.truthy]
  · simp [JSNum.lt]

/-- C6 (amended): when every reading of the copy loop shows the same finite positive duration
and a position in `[0, duration]`, and successive positions do not decrease, the values handed
to the observer are non-decreasing and lie in `[0, 100]`; they lie in `[0, 100)` when every
position read is below the duration. -/
theorem progress_nondecreasing_within_bounds (o : Options) (evs : List Event) (d : ℚ)
    (hd : 0 < d)
    (hr : ∀ r ∈ copyLoopReadings false evs, r.duration = JSNum.fin d ∧
      JSNum.le (JSNum.fin 0) r.currentTime = true ∧
      JSNum.le r.currentTime (JSNum.fin d) = true)
    (hm : List.Chain' positionLe (copyLoopReadings false evs)) :
    List.Pairwise (fun a b => JSNum.le a b = true)
        (progressValues (convertVideoToWebM o evs).log) ∧
      (∀ v ∈ progressValues (convertVideoToWebM o evs).log,
        JSNum.le (JSNum.fin 0) v = true ∧ JSNum.le v (JSNum.fin 100) = true) ∧
      ((∀ r ∈ copyLoopReadings false evs, JSNum.lt r.currentTime r.duration = true) →
        ∀ v ∈ progressValues (convertVideoToWebM o evs).log,
          JSNum.lt v (JSNum.fin 100) = true) := by
  have hd0 : d ≠ 0 := ne_of_gt hd
  have hlog : progressValues (convertVideoToWebM o evs).log =
      (copyLoopReadings false evs).filterMap (emitted o) := by
    rw [convertVideoToWebM, run_progress]
    simp [Pipeline.init, progressValues]
  rw [hlog]
  generalize copyLoopReadings false evs = rs at hr hm
  -- what a reading hands to the observer
  have hval : ∀ r ∈ rs, ∀ v ∈ emitted o r,
      ∃ c : ℚ, r.currentTime = JSNum.fin c ∧ 0 ≤ c ∧ c ≤ d ∧
        v = JSNum.fin (c / d * 100) := by
    intro r hrm v hv
    obtain ⟨hdur, h0, h1⟩ := hr r hrm
    obtain ⟨c, hc, hc0, hcd⟩ := position_fin _ d h0 h1
    refine ⟨c, hc, hc0, hcd, ?_⟩
    have hp := progressOf_fin r c d hc hdur hd0
    unfold emitted at hv
    split_ifs at hv
    · simp at hv
    · have hv2 : progressOf r = v := by simpa using hv
      rw [← hv2, hp]
    · simp at hv
  have htrans : IsTrans VideoReading positionLe :=
    ⟨fun a b c hab hbc => JSNum.le_transitive _ _ _ hab hbc⟩
  have hpair : List.Pairwise positionLe rs := List.chain'_iff_pairwise.mp hm
  refine ⟨?_, ?_, ?_⟩
  · refine List.Pairwise.filterMap (emitted o) ?_ (List.Pairwise.and_mem.mp hpair)
    rintro a b ⟨ha, hb, hab⟩ v hv w hw
    obtain ⟨ca, hca, -, -, rfl⟩ := hval a ha v hv
    obtain ⟨cb, hcb, -, -, rfl⟩ := hval b hb w hw
    have hle : ca ≤ cb := by simpa [positionLe, hca, hcb, JSNum.le] using hab
    have : ca / d * 100 ≤ cb / d * 100 := by
      have := div_le_div_of_nonneg_right hle hd.le
      linarith
    simpa [JSNum.le] using this
  · intro v hv
    obtain ⟨r, hrm, hrv⟩ := List.mem_filterMap.mp hv
    obtain ⟨c, -, hc0, hcd, rfl⟩ := hval r hrm v hrv
    have h1 : 0 ≤ c / d := div_nonneg hc0 hd.le
    have h2 : c / d ≤ 1 := (div_le_one hd).mpr hcd
    constructor
    · simp only [JSNum.le, decide_eq_true_eq]; linarith
    · simp only [JSNum.le, decide_eq_true_eq]; linarith
  · intro hlt v hv
    obtain ⟨r, hrm, hrv⟩ := List.mem_filterMap.mp hv
    obtain ⟨c, hc, -, -, rfl⟩ := hval r hrm v hrv
    have hcd : c < d := by
      have := hlt r hrm
      simpa [hc, (hr r hrm).1, JSNum.lt] using this
    have h2 : c / d < 1 := (div_lt_one hd).mpr hcd
    simp only [JSNum.lt, decide_eq_true_eq]; linarith

/-- C6 (amended), on the sample source read at the positions `0` and `5`. -/
theorem progress_nondecreasing_within_bounds_witness :
    List.Pairwise (fun a b => JSNum.le a b = true)
      (progressValues (convertVideoToWebM componentOptions [Event.loadedmetadata sampleMetadata,
        Event.animationFrame (playingAt 5 2)]).log) := by
  have hrs : copyLoopReadings false [Event.loadedmetadata sampleMetadata,
      Event.animationFrame (playingAt 5 2)] = [playingAt 0 1, playingAt 5 2] := by
    simp [copyLoopReadings, stepReadings, recorderAfter, MetadataReading.completes,
      sampleMetadata]
  exact (progress_nondecreasing_within_bounds componentOptions
    [Event.loadedmetadata sampleMetadata, Event.animationFrame (playingAt 5 2)] 10
    (by norm_num)
    (by
      rw [hrs]
      intro r hr
      simp only [List.mem_cons, List.mem_singleton, List.not_mem_nil, or_false] at hr
      rcases hr with rfl | rfl <;> simp [playingAt, JSNum.le]
      norm_num)
    (by
      rw [hrs]
      simp [positionLe, playingAt, JSNum.le])).1

end Claims

end VideoConverter
